import Mathlib

/-!
Verification of the SASL authentication core in `src/loudmouth/lm-sasl.c`.

The development is a shallow embedding of the C source: GLib strings become
`String`/`List Char`, `GHashTable` becomes an association list with
insert-replaces semantics, NULL-able pointers become `Option`, and the
side effects of each function (result-callback invocations, outgoing
stanzas) are collected in an explicit event list.  The external
collaborators (MD5, base64, the transport send) are passed in as function
or boolean parameters, exactly at the interface boundary the source uses
them.
-/

namespace Loudmouth

/-- The `AuthType` enum of lm-sasl.c; the C values PLAIN = 1 and DIGEST = 2
are used as a bitmask during negotiation (see `select_auth_type` below). -/
inductive AuthType
  | plain
  | digest
deriving DecidableEq, Repr

/-- The `SaslAuthState` enum of lm-sasl.c. -/
inductive SaslAuthState
  | noMech
  | plainStarted
  | digestMd5Started
  | digestMd5SentAuthResponse
  | digestMd5SentFinalResponse
deriving DecidableEq, Repr

/-- The `_LmSASL` struct.  The struct is allocated with `g_new0`, so before
negotiation the `auth_type` field holds the integer 0, which is none of the
enum's values; that is modelled by `authType = none`. -/
structure LmSASL where
  authType : Option AuthType
  state : SaslAuthState
  username : Option String
  password : Option String
  server : String
  digest_md5_rspauth : Option String
deriving DecidableEq, Repr

/-- Observable effects of a SASL step: an invocation of the caller's result
callback `sasl->handler (sasl, connection, success, reason)`, an outgoing
`auth` stanza, or an outgoing `response` stanza (`value = none` is the empty
second-round response). -/
inductive Event
  | callback (success : Bool) (reason : Option String)
  | sendAuth (mechanism : Option String) (value : Option String)
  | sendResponse (value : Option String)
deriving DecidableEq, Repr

/-- Result of a message-handler callback.  `assertNotReached` models the
`g_assert_not_reached ()` calls, which abort the process. -/
inductive HandlerOutcome
  | allowMoreHandlers
  | removeMessage
  | assertNotReached
deriving DecidableEq, Repr

/-- The parts of an `LmMessageNode` the SASL code reads: the `xmlns`
attribute and the node's text value (both NULL-able). -/
structure LmMessageNode where
  xmlns : Option String
  value : Option String
deriving DecidableEq, Repr

def XMPP_NS_SASL_AUTH : String := "urn:ietf:params:xml:ns:xmpp-sasl"

/-- A `GHashTable` with string keys and values. -/
abbrev Table := List (String × String)

/-- `g_hash_table_insert`: a later insert for the same key replaces the
earlier value. -/
def hashInsert (t : Table) (k v : String) : Table :=
  (k, v) :: t.filter (fun p => p.1 ≠ k)

/-- `g_hash_table_lookup`: `none` models a NULL return. -/
def hashLookup (t : Table) (k : String) : Option String :=
  (t.find? (fun p => p.1 = k)).map Prod.snd

/-- `strndup_unescaped (str, len)` (lm-sasl.c:173): copies `len` source
positions, where a backslash is skipped and the character after it is copied
instead.  A backslash at the last position copies the character one past the
region; at the only call site that character is the closing quote of the
value.  (A backslash with nothing after it at all would read past the buffer
in C; it cannot happen at the call site and is mapped to the empty list.) -/
def strndup_unescaped : List Char → Nat → List Char
  | _, 0 => []
  | [], _ + 1 => []
  | c :: rest, n + 1 =>
    if c = '\\' then
      match rest, n with
      | [], _ => []
      | d :: _, 0 => [d]
      | d :: rest2, m + 1 => d :: strndup_unescaped rest2 m
    else
      c :: strndup_unescaped rest n

/-- The quoted-value case of the parse loop (lm-sasl.c:204-210): after the
opening quote, scan to the next `"` — the scan does not treat a
backslash-escaped quote specially — error on end-of-string (unterminated)
or empty value, otherwise unescape the scanned region with
`strndup_unescaped` and return it with the remainder after the closing
quote. -/
def parseQuotedVal (rest3 : List Char) : Option (String × List Char) :=
  match rest3.dropWhile (fun ch => ch ≠ '"') with
  | [] => none
  | _ :: rest5 =>
    if (rest3.takeWhile (fun ch => ch ≠ '"')).isEmpty then none
    else
      some (String.mk (strndup_unescaped rest3
        (rest3.takeWhile (fun ch => ch ≠ '"')).length), rest5)

/-- The unquoted-value case of the parse loop (lm-sasl.c:211-216): scan to
the next `,` or end-of-string, error on an empty value; the remainder
starts at the `,` (or is empty), matching the C pointer position. -/
def parseUnquotedVal (rest2 : List Char) : Option (String × List Char) :=
  if (rest2.takeWhile (fun ch => ch ≠ ',')).isEmpty then none
  else
    some (String.mk (rest2.takeWhile (fun ch => ch ≠ ',')),
      rest2.dropWhile (fun ch => ch ≠ ','))

/-- One iteration of the `do { ... } while` loop of
`digest_md5_challenge_to_hash` up to the insertion (lm-sasl.c:196-218):
scan the key up to `=` (error on end-of-string or empty key), then parse a
quoted or unquoted value depending on the character after the `=`.
Returns key, value, and the rest of the input. -/
def parseDirective (cs : List Char) : Option (String × String × List Char) :=
  match cs.dropWhile (fun ch => ch ≠ '=') with
  | [] => none
  | _ :: rest2 =>
    if (cs.takeWhile (fun ch => ch ≠ '=')).isEmpty then none
    else
      match rest2 with
      | '"' :: rest3 =>
        (parseQuotedVal rest3).map
          (fun p => (String.mk (cs.takeWhile (fun ch => ch ≠ '=')), p.1, p.2))
      | _ =>
        (parseUnquotedVal rest2).map
          (fun p => (String.mk (cs.takeWhile (fun ch => ch ≠ '=')), p.1, p.2))

/-- The `do { ... } while (*c != '\0')` loop of
`digest_md5_challenge_to_hash` (lm-sasl.c:195-223): parse one directive,
insert it, skip one `,` if present (`if (*c == ',') c++`), and loop while
the end of the string has not been reached.  `fuel` bounds the number of
loop iterations; every iteration of the C loop consumes at least three
characters of the input, so `length + 1` iterations always suffice and the
`fuel = 0` case is never reached from `digest_md5_challenge_to_hash`. -/
def parseLoop : Nat → List Char → Table → Option Table
  | 0, _, _ => none
  | fuel + 1, cs, tbl =>
    match parseDirective cs with
    | none => none
    | some (key, val, rest) =>
      let tbl2 := hashInsert tbl key val
      let rest2 := if rest.head? = some ',' then rest.tail else rest
      if rest2.isEmpty then some tbl2 else parseLoop fuel rest2 tbl2

/-- `digest_md5_challenge_to_hash` (lm-sasl.c:187): parse a challenge into a
directive table, `none` on any malformed directive. -/
def digest_md5_challenge_to_hash (challenge : String) : Option Table :=
  parseLoop (challenge.data.length + 1) challenge.data []

/-- Bytes of a C string, as naturals.  (The source manipulates `gchar`
buffers; the exact character encoding is irrelevant to the claims, which
compare both sides of each hash equation under the same encoding.) -/
def strBytes (s : String) : List Nat := s.data.map Char.toNat

/-- Lower-case hexadecimal digit, as produced by `printf "%02x"`. -/
def hexDigitChar (n : Nat) : Char :=
  if n < 10 then Char.ofNat (48 + n) else Char.ofNat (87 + n)

/-- `"%02x"` applied to one `md5_byte_t` (an unsigned char, so < 256). -/
def hexByte (n : Nat) : List Char := [hexDigitChar (n / 16 % 16), hexDigitChar (n % 16)]

/-- `md5_hex_hash (value, len)` (lm-sasl.c:232): the 32-character lower-case
hex rendering of the MD5 digest of `value`.  The MD5 primitive itself is
external (md5.h), so it is a parameter `md5f`; the real one always returns
16 bytes. -/
def md5_hex_hash (md5f : List Nat → List Nat) (value : List Nat) : String :=
  String.mk ((md5f value).map hexByte).flatten

/-- The directive text built by the `g_string_append_printf` calls of
`md5_prepare_response` (lm-sasl.c:297-303), before `,response=` is
appended.  Values are interpolated without any escaping, as in the source. -/
def md5_directive_text (username realm nonce cnonce : String) : String :=
  "username=\"" ++ username ++ "\"" ++ (",realm=\"" ++ realm ++ "\"") ++
    (",digest-uri=\"xmpp/" ++ realm ++ "\"") ++
    (",nonce=\"" ++ nonce ++ "\",nc=00000001") ++
    (",cnonce=\"" ++ cnonce ++ "\"") ++ ",qop=auth,charset=utf-8"

/-- `md5_prepare_response` (lm-sasl.c:260).  Parameters beyond the session
and the parsed challenge: `md5f` is the external MD5 primitive and `cnonce`
the value produced by `digest_md5_generate_cnonce` (random, so an input
here).  Returns the emitted events, the updated session and the response
directive string (`none` models the NULL return of the C `error` path).

Faithfulness notes, keyed to the source:
* the credential check (line 271) precedes the nonce check;
* line 280 reads `nonce == NULL || nonce == '\0'`; the second comparison
  tests the *pointer* against the character literal zero, i.e. it is a
  second NULL test, so only an absent nonce is rejected;
* `realm` falls back to `sasl->server` when absent (line 292);
* `a1` is printf-ed with a 16-character placeholder, its length taken, and
  the placeholder then overwritten by the 16 raw digest bytes via `memcpy`
  (lines 311-314); `md5_hex_hash (a1, len)` hashes `len` bytes of the
  resulting buffer, which is modelled by the `take len`;
* the expected `rspauth` is derived with `a2 = ":xmpp/realm"` and stored in
  the session (lines 329-334). -/
def md5_prepare_response (md5f : List Nat → List Nat) (cnonce : String)
    (sasl : LmSASL) (challenge : Table) : List Event × LmSASL × Option String :=
  match sasl.username, sasl.password with
  | some username, some password =>
    (match hashLookup challenge "nonce" with
     | none => ([Event.callback false (some "server error")], sasl, none)
     | some nonce =>
       let realm := (hashLookup challenge "realm").getD sasl.server
       let response := md5_directive_text username realm nonce cnonce
       let hURP := md5f (strBytes (username ++ ":" ++ realm ++ ":" ++ password))
       let a1_0 := strBytes ("0123456789012345:" ++ nonce ++ ":" ++ cnonce)
       let len := a1_0.length
       let a1 := hURP ++ a1_0.drop 16
       let a1h := md5_hex_hash md5f (a1.take len)
       let a2 := "AUTHENTICATE:xmpp/" ++ realm
       let a2h := md5_hex_hash md5f (strBytes a2)
       let kd := a1h ++ ":" ++ nonce ++ ":00000001:" ++ cnonce ++ ":auth:" ++ a2h
       let kdh := md5_hex_hash md5f (strBytes kd)
       let response2 := response ++ (",response=" ++ kdh)
       let a2x := ":xmpp/" ++ realm
       let a2xh := md5_hex_hash md5f (strBytes a2x)
       let kdx := a1h ++ ":" ++ nonce ++ ":00000001:" ++ cnonce ++ ":auth:" ++ a2xh
       let rspauth := md5_hex_hash md5f (strBytes kdx)
       ([], { sasl with digest_md5_rspauth := some rspauth }, some response2))
  | _, _ => ([Event.callback false (some "no username/password provided")], sasl, none)

/-- `digest_md5_send_initial_response` (lm-sasl.c:353).  `b64enc` is the
external base64 encoder, `sendOk` the result of `lm_connection_send`.  The
state advances to `DIGEST_MD5_SENT_AUTH_RESPONSE` only when the send
succeeded. -/
def digest_md5_send_initial_response (md5f : List Nat → List Nat)
    (b64enc : String → String) (cnonce : String) (sendOk : Bool)
    (sasl : LmSASL) (challenge : Table) : List Event × LmSASL × Bool :=
  match md5_prepare_response md5f cnonce sasl challenge with
  | (events, sasl2, none) => (events, sasl2, false)
  | (events, sasl2, some response) =>
    let events2 := events ++ [Event.sendResponse (some (b64enc response))]
    if sendOk then
      (events2, { sasl2 with state := SaslAuthState.digestMd5SentAuthResponse }, true)
    else
      (events2, sasl2, false)

/-- `digest_md5_check_server_response` (lm-sasl.c:386).  Note that on a
missing or mismatching `rspauth` the source invokes the result callback
with `TRUE` as the success flag (lines 396 and 404), while every other
error path in the file passes `FALSE`.  When this function runs, the
session's `digest_md5_rspauth` was set by `md5_prepare_response`, so the
comparison against `some rspauth` mirrors the C `strcmp`. -/
def digest_md5_check_server_response (sendOk : Bool)
    (sasl : LmSASL) (challenge : Table) : List Event × LmSASL × Bool :=
  match hashLookup challenge "rspauth" with
  | none => ([Event.callback true (some "server error")], sasl, false)
  | some rspauth =>
    if sasl.digest_md5_rspauth ≠ some rspauth then
      ([Event.callback true (some "server error")], sasl, false)
    else
      let events := [Event.sendResponse none]
      if sendOk then
        (events, { sasl with state := SaslAuthState.digestMd5SentFinalResponse }, true)
      else
        (events, sasl, false)

/-- `digest_md5_handle_challenge` (lm-sasl.c:425).  `b64dec` is the external
base64 decoder.  A node without text content is dropped with no callback
and no state change; an undecodable/unparseable challenge triggers the
failure callback; otherwise the state decides the round, with the default
branch rejecting an out-of-order challenge. -/
def digest_md5_handle_challenge (md5f : List Nat → List Nat)
    (b64dec b64enc : String → String) (cnonce : String) (sendOk : Bool)
    (sasl : LmSASL) (node : LmMessageNode) : List Event × LmSASL × Bool :=
  match node.value with
  | none => ([], sasl, false)
  | some encoded =>
    match digest_md5_challenge_to_hash (b64dec encoded) with
    | none => ([Event.callback false (some "server error")], sasl, false)
    | some h =>
      match sasl.state with
      | SaslAuthState.digestMd5Started =>
        let r := digest_md5_send_initial_response md5f b64enc cnonce sendOk sasl h
        (r.1, r.2.1, true)
      | SaslAuthState.digestMd5SentAuthResponse =>
        let r := digest_md5_check_server_response sendOk sasl h
        (r.1, r.2.1, true)
      | _ => ([Event.callback false (some "server error")], sasl, false)

/-- `challenge_cb` (lm-sasl.c:469): namespace check, then dispatch on the
mechanism.  For PLAIN any challenge is an error; with no mechanism selected
(the zero-initialised `auth_type`) the `default` branch of the C switch
executes `g_assert_not_reached ()`. -/
def challenge_cb (md5f : List Nat → List Nat) (b64dec b64enc : String → String)
    (cnonce : String) (sendOk : Bool)
    (sasl : LmSASL) (message : LmMessageNode) : List Event × LmSASL × HandlerOutcome :=
  match message.xmlns with
  | none => ([], sasl, HandlerOutcome.allowMoreHandlers)
  | some ns =>
    if ns ≠ XMPP_NS_SASL_AUTH then ([], sasl, HandlerOutcome.allowMoreHandlers)
    else
      match sasl.authType with
      | some AuthType.plain =>
        ([Event.callback false (some "server error")], sasl, HandlerOutcome.removeMessage)
      | some AuthType.digest =>
        let r := digest_md5_handle_challenge md5f b64dec b64enc cnonce sendOk sasl message
        (r.1, r.2.1, HandlerOutcome.removeMessage)
      | none => ([], sasl, HandlerOutcome.assertNotReached)

/-- `success_cb` (lm-sasl.c:501): after the namespace check, a success in a
state other than the mechanism's pre-success state invokes the result
callback with `(FALSE, "server error")`; execution then falls through to
the unconditional success callback `(TRUE, NULL)` at lines 538-540, so a
single out-of-order success message invokes the callback twice. -/
def success_cb (sasl : LmSASL) (message : LmMessageNode) :
    List Event × LmSASL × HandlerOutcome :=
  match message.xmlns with
  | none => ([], sasl, HandlerOutcome.allowMoreHandlers)
  | some ns =>
    if ns ≠ XMPP_NS_SASL_AUTH then ([], sasl, HandlerOutcome.allowMoreHandlers)
    else
      match sasl.authType with
      | some AuthType.plain =>
        let ev1 := if sasl.state ≠ SaslAuthState.plainStarted then
          [Event.callback false (some "server error")] else []
        (ev1 ++ [Event.callback true none], sasl, HandlerOutcome.removeMessage)
      | some AuthType.digest =>
        let ev1 := if sasl.state ≠ SaslAuthState.digestMd5SentFinalResponse then
          [Event.callback false (some "server error")] else []
        (ev1 ++ [Event.callback true none], sasl, HandlerOutcome.removeMessage)
      | none => ([], sasl, HandlerOutcome.assertNotReached)

/-- `lm_sasl_start` (lm-sasl.c:575).  For PLAIN the state is set to
`PLAIN_STARTED` *before* the credential check and the send; for DIGEST-MD5
it is set to `DIGEST_MD5_STARTED` before the send.  A failed send therefore
returns FALSE with the state already advanced.  With no mechanism selected
the C code would send an `auth` stanza with a NULL mechanism attribute;
that branch is unreachable from `lm_sasl_authenticate`. -/
def lm_sasl_start (b64enc : String → String) (sendOk : Bool)
    (sasl : LmSASL) : List Event × LmSASL × Bool :=
  match sasl.authType with
  | some AuthType.plain =>
    let sasl2 := { sasl with state := SaslAuthState.plainStarted }
    (match sasl.username, sasl.password with
     | some username, some password =>
       let payload := "\x00" ++ username ++ "\x00" ++ password
       ([Event.sendAuth (some "PLAIN") (some (b64enc payload))], sasl2, sendOk)
     | _, _ =>
       ([Event.callback false (some "no username/password provided")], sasl2, false))
  | some AuthType.digest =>
    ([Event.sendAuth (some "DIGEST-MD5") none],
      { sasl with state := SaslAuthState.digestMd5Started }, sendOk)
  | none => ([Event.sendAuth none none], sasl, sendOk)

/-- The mechanism-list scan of `lm_sasl_authenticate` (lm-sasl.c:645-658):
each child node's value (`none` models a NULL `lm_message_node_get_value`,
which is skipped) is compared case-sensitively against `"PLAIN"` and
`"DIGEST-MD5"`, OR-ing the C enum values 1 and 2 into a bitmask;
unrecognized names are ignored. -/
def auth_type_step (acc : Nat) (name : Option String) : Nat :=
  match name with
  | none => acc
  | some n =>
    if n = "PLAIN" then acc ||| 1
    else if n = "DIGEST-MD5" then acc ||| 2
    else acc

/-- The whole mechanism scan: fold `auth_type_step` over the children,
starting from the zero-initialised `auth_type` local. -/
def select_auth_type (names : List (Option String)) : Nat :=
  names.foldl auth_type_step 0

/-- The node handed to `lm_sasl_authenticate`: the `mechanisms` element's
`xmlns` attribute and the values of its children. -/
structure MechanismsNode where
  xmlns : Option String
  names : List (Option String)

/-- `lm_sasl_authenticate` (lm-sasl.c:634): namespace check, mechanism
scan, failure when no supported mechanism was advertised (the session is
untouched), otherwise DIGEST-MD5 is preferred over PLAIN and
`lm_sasl_start` runs with the chosen `auth_type`.  The final
`g_assert_not_reached` of the source is unreachable: the mask only ever
contains bits 1 and 2, so a non-zero mask with bit 2 clear has bit 1 set. -/
def lm_sasl_authenticate (b64enc : String → String) (sendOk : Bool)
    (sasl : LmSASL) (mechanisms : MechanismsNode) : List Event × LmSASL × Bool :=
  match mechanisms.xmlns with
  | none => ([], sasl, false)
  | some ns =>
    if ns ≠ XMPP_NS_SASL_AUTH then ([], sasl, false)
    else
      let mask := select_auth_type mechanisms.names
      if mask = 0 then ([], sasl, false)
      else if mask &&& 2 ≠ 0 then
        lm_sasl_start b64enc sendOk { sasl with authType := some AuthType.digest }
      else if mask &&& 1 ≠ 0 then
        lm_sasl_start b64enc sendOk { sasl with authType := some AuthType.plain }
      else ([], sasl, false)

/-- Spec-side definition, for the refinement stated by claim C6:
`HA1 = hex(MD5(rawMD5(U ":" R ":" P) || ":" || N || ":" || CN))`. -/
def ha1Spec (md5f : List Nat → List Nat) (U R P N CN : String) : String :=
  md5_hex_hash md5f
    (md5f (strBytes (U ++ ":" ++ R ++ ":" ++ P)) ++ strBytes (":" ++ N ++ ":" ++ CN))

/-- Spec-side definition, claim C6: the generated response value
`hex(MD5(HA1 ":" N ":00000001:" CN ":auth:" HA2))` with
`HA2 = hex(MD5("AUTHENTICATE:xmpp/" || R))`. -/
def responseSpec (md5f : List Nat → List Nat) (U R P N CN : String) : String :=
  md5_hex_hash md5f
    (strBytes (ha1Spec md5f U R P N CN ++ ":" ++ N ++ ":00000001:" ++ CN ++ ":auth:" ++
      md5_hex_hash md5f (strBytes ("AUTHENTICATE:xmpp/" ++ R))))

/-- Spec-side definition, claim C6: the stored expected rspauth, the same
derivation with `A2' = ":xmpp/" || R` in place of `A2`. -/
def rspauthSpec (md5f : List Nat → List Nat) (U R P N CN : String) : String :=
  md5_hex_hash md5f
    (strBytes (ha1Spec md5f U R P N CN ++ ":" ++ N ++ ":00000001:" ++ CN ++ ":auth:" ++
      md5_hex_hash md5f (strBytes (":xmpp/" ++ R))))

/-- A concrete stand-in for the external MD5 primitive, used to instantiate
universally quantified theorems at witness inputs; like the real one it
always returns 16 bytes. -/
def md5f0 : List Nat → List Nat := fun _ => List.replicate 16 0

/-- A concrete stand-in for the external base64 codec at witness inputs. -/
def b64id : String → String := fun s => s

/-- A session in the middle of the DIGEST-MD5 flow, just after the initial
response was sent: used as a concrete test fixture. -/
def saslAfterAuthResponse : LmSASL :=
  { authType := some AuthType.digest
    state := SaslAuthState.digestMd5SentAuthResponse
    username := some "user"
    password := some "pass"
    server := "srv"
    digest_md5_rspauth := some "deadbeef" }

/-- A freshly created session (`lm_sasl_new` + `g_new0`): no mechanism
selected yet. -/
def saslFresh : LmSASL :=
  { authType := none
    state := SaslAuthState.noMech
    username := some "user"
    password := some "pass"
    server := "srv"
    digest_md5_rspauth := none }

/-- A session that negotiated DIGEST-MD5 and sent the initial `auth`
stanza. -/
def saslDigestStarted : LmSASL :=
  { authType := some AuthType.digest
    state := SaslAuthState.digestMd5Started
    username := some "user"
    password := some "pass"
    server := "srv"
    digest_md5_rspauth := none }

/-- A session that completed the DIGEST-MD5 exchange (empty second response
sent). -/
def saslFinalResponse : LmSASL :=
  { authType := some AuthType.digest
    state := SaslAuthState.digestMd5SentFinalResponse
    username := some "user"
    password := some "pass"
    server := "srv"
    digest_md5_rspauth := some "deadbeef" }

/-- A session that negotiated PLAIN but has not yet sent the `auth`
stanza (as `lm_sasl_authenticate` leaves it just before `lm_sasl_start`). -/
def saslPlainFresh : LmSASL :=
  { authType := some AuthType.plain
    state := SaslAuthState.noMech
    username := some "user"
    password := some "pass"
    server := "srv"
    digest_md5_rspauth := none }

/-- A `mechanisms` advertisement offering both PLAIN and DIGEST-MD5, used
as a concrete negotiation input. -/
def mechsPlainDigest : MechanismsNode :=
  { xmlns := some XMPP_NS_SASL_AUTH
    names := [some "PLAIN", some "DIGEST-MD5"] }

/-! Helper lemmas about the scanning primitives. -/

theorem takeWhile_append_cons {α : Type} (p : α → Bool) (l₁ : List α) (a : α) (l₂ : List α)
    (h₁ : ∀ c ∈ l₁, p c = true) (h₂ : p a = false) :
    (l₁ ++ a :: l₂).takeWhile p = l₁ := by
  induction l₁ with
  | nil => simp [List.takeWhile_cons, h₂]
  | cons c l ih =>
    have hc : p c = true := h₁ c (by simp)
    simp only [List.cons_append, List.takeWhile_cons, hc, if_true]
    rw [ih (fun x hx => h₁ x (List.mem_cons_of_mem _ hx))]

theorem dropWhile_append_cons {α : Type} (p : α → Bool) (l₁ : List α) (a : α) (l₂ : List α)
    (h₁ : ∀ c ∈ l₁, p c = true) (h₂ : p a = false) :
    (l₁ ++ a :: l₂).dropWhile p = a :: l₂ := by
  induction l₁ with
  | nil => simp [List.dropWhile_cons, h₂]
  | cons c l ih =>
    have hc : p c = true := h₁ c (by simp)
    simp only [List.cons_append, List.dropWhile_cons, hc, if_true]
    exact ih (fun x hx => h₁ x (List.mem_cons_of_mem _ hx))

theorem strndup_unescaped_zero (s : List Char) : strndup_unescaped s 0 = [] := by
  cases s <;> rfl

theorem strndup_unescaped_cons_of_ne (c : Char) (rest : List Char) (n : Nat)
    (hc : ¬ (c = '\\')) :
    strndup_unescaped (c :: rest) (n + 1) = c :: strndup_unescaped rest n := by
  rw [strndup_unescaped.eq_def]
  simp [hc]

theorem strndup_unescaped_no_backslash (v rest : List Char) (h : '\\' ∉ v) :
    strndup_unescaped (v ++ rest) v.length = v := by
  induction v with
  | nil => simp [strndup_unescaped_zero]
  | cons c v ih =>
    have hc : ¬ (c = '\\') := by
      intro e
      exact h (by simp [e])
    rw [List.cons_append, List.length_cons,
      strndup_unescaped_cons_of_ne c (v ++ rest) v.length hc,
      ih (fun hm => h (List.mem_cons_of_mem _ hm))]

theorem strndup_unescaped_ne_nil (s : List Char) (n : Nat) (h1 : n ≠ 0) (h2 : n < s.length) :
    strndup_unescaped s n ≠ [] := by
  match s, n with
  | [], n => simp at h2
  | c :: rest, m + 1 =>
    by_cases hc : c = '\\'
    · subst hc
      match rest, m with
      | [], m =>
        simp only [List.length_cons, List.length_nil] at h2
        omega
      | d :: rest2, 0 =>
        rw [show (0 + 1) = 1 from rfl,
          show strndup_unescaped ('\\' :: d :: rest2) 1 = [d] from rfl]
        simp
      | d :: rest2, m' + 1 =>
        show strndup_unescaped ('\\' :: d :: rest2) (m' + 2) ≠ []
        rw [show strndup_unescaped ('\\' :: d :: rest2) (m' + 2) =
          d :: strndup_unescaped rest2 m' from rfl]
        simp
    · rw [strndup_unescaped_cons_of_ne c rest m hc]
      simp

theorem parseLoop_succ (fuel : Nat) (cs : List Char) (tbl : Table) :
    parseLoop (fuel + 1) cs tbl =
      (match parseDirective cs with
       | none => none
       | some (key, val, rest) =>
         let tbl2 := hashInsert tbl key val
         let rest2 := if rest.head? = some ',' then rest.tail else rest
         if rest2.isEmpty then some tbl2 else parseLoop fuel rest2 tbl2) := rfl

theorem hashInsert_forall {P : String × String → Prop} (t : Table) (k v : String)
    (ht : ∀ kv ∈ t, P kv) (hkv : P (k, v)) : ∀ kv ∈ hashInsert t k v, P kv := by
  intro kv hm
  rcases List.mem_cons.1 hm with h | h
  · rw [h]
    exact hkv
  · exact ht kv (List.mem_of_mem_filter h)

theorem stringMk_ne_empty (l : List Char) (h : l ≠ []) : String.mk l ≠ "" := by
  intro e
  apply h
  have h2 := congrArg String.data e
  simpa using h2

theorem map_triple_eq (o : Option (String × List Char)) (key k v : String)
    (rest : List Char)
    (h : Option.map (fun p => (key, p.1, p.2)) o = some (k, v, rest)) :
    o = some (v, rest) := by
  cases o with
  | none => simp at h
  | some p =>
    obtain ⟨p1, p2⟩ := p
    simp only [Option.map_some', Option.some.injEq, Prod.mk.injEq] at h
    rw [h.2.1, h.2.2]

theorem parseQuotedVal_nonempty (rest3 : List Char) (v : String) (rest : List Char)
    (h : parseQuotedVal rest3 = some (v, rest)) : v ≠ "" := by
  unfold parseQuotedVal at h
  split at h
  · exact absurd h (by simp)
  · rename_i a rest5 hdrop
    split at h
    · exact absurd h (by simp)
    · rename_i hval
      have hvne : rest3.takeWhile (fun ch => ch ≠ '"') ≠ [] := by
        intro e
        rw [e] at hval
        exact hval rfl
      have hlen : (rest3.takeWhile (fun ch => ch ≠ '"')).length < rest3.length := by
        have hsplit := List.takeWhile_append_dropWhile (fun ch => decide (ch ≠ '"')) rest3
        have h2 := congrArg List.length hsplit
        rw [List.length_append, hdrop] at h2
        simp only [List.length_cons] at h2
        omega
      have hstr := stringMk_ne_empty _ (strndup_unescaped_ne_nil rest3 _
        (by simpa using hvne) hlen)
      injection h with h
      have h1 := congrArg Prod.fst h
      simp only [] at h1
      rw [← h1]
      exact hstr

theorem parseUnquotedVal_nonempty (rest2 : List Char) (v : String) (rest : List Char)
    (h : parseUnquotedVal rest2 = some (v, rest)) : v ≠ "" := by
  unfold parseUnquotedVal at h
  split at h
  · exact absurd h (by simp)
  · rename_i hval
    have hvne : rest2.takeWhile (fun ch => ch ≠ ',') ≠ [] := by
      intro e
      rw [e] at hval
      exact hval rfl
    injection h with h
    have h1 := congrArg Prod.fst h
    simp only [] at h1
    rw [← h1]
    exact stringMk_ne_empty _ hvne

theorem parseDirective_val_nonempty (cs : List Char) (k v : String) (rest : List Char)
    (h : parseDirective cs = some (k, v, rest)) : v ≠ "" := by
  unfold parseDirective at h
  split at h
  · exact absurd h (by simp)
  · split at h
    · exact absurd h (by simp)
    · split at h
      · exact parseQuotedVal_nonempty _ _ _ (map_triple_eq _ _ _ _ _ h)
      · exact parseUnquotedVal_nonempty _ _ _ (map_triple_eq _ _ _ _ _ h)

/-- Every value inserted by the challenge parser is a nonempty string: a
quoted value errors out when empty and otherwise unescapes at least one
character, and an unquoted value errors out when empty. -/
theorem parseLoop_values_nonempty :
    ∀ (fuel : Nat) (cs : List Char) (tbl res : Table),
      parseLoop fuel cs tbl = some res →
      (∀ kv ∈ tbl, kv.2 ≠ "") → ∀ kv ∈ res, kv.2 ≠ "" := by
  intro fuel
  induction fuel with
  | zero =>
    intro cs tbl res h
    rw [show parseLoop 0 cs tbl = none from rfl] at h
    exact absurd h (by simp)
  | succ fuel ih =>
    intro cs tbl res h htbl
    rw [parseLoop_succ] at h
    cases hd : parseDirective cs with
    | none => rw [hd] at h; exact absurd h (by simp)
    | some kvr =>
      obtain ⟨key, val, rest⟩ := kvr
      rw [hd] at h
      simp only [] at h
      have hins := hashInsert_forall (P := fun kv => kv.2 ≠ "") tbl key val htbl
        (parseDirective_val_nonempty cs key val rest hd)
      split at h
      all_goals split at h
      all_goals first
        | (injection h with h
           rw [← h]
           exact hins)
        | exact ih _ _ _ h hins

/-- Parser-level corollary for whole challenge strings. -/
theorem parse_values_nonempty (s : String) (h : Table)
    (hp : digest_md5_challenge_to_hash s = some h) : ∀ kv ∈ h, kv.2 ≠ "" :=
  parseLoop_values_nonempty _ _ _ _ hp (by simp)

theorem hashLookup_mem (t : Table) (k v : String) (h : hashLookup t k = some v) :
    ∃ kv ∈ t, kv.2 = v := by
  unfold hashLookup at h
  cases hf : t.find? (fun p => p.1 = k) with
  | none => rw [hf] at h; simp at h
  | some kv =>
    rw [hf] at h
    simp at h
    exact ⟨kv, List.mem_of_find?_eq_some hf, h⟩

/-! Helper lemmas about the mechanism-selection bitmask. -/

theorem auth_type_step_lt4 (acc : Nat) (h : acc < 4) (name : Option String) :
    auth_type_step acc name < 4 := by
  rcases name with _ | n
  · simpa [auth_type_step]
  · simp only [auth_type_step]
    split
    · interval_cases acc <;> decide
    · split
      · interval_cases acc <;> decide
      · simpa

theorem auth_type_step_bit2 (acc : Nat) (h : acc < 4) (name : Option String) :
    (auth_type_step acc name &&& 2 ≠ 0) ↔
      (acc &&& 2 ≠ 0 ∨ name = some "DIGEST-MD5") := by
  rcases name with _ | n
  · simp [auth_type_step]
  · simp only [auth_type_step, Option.some.injEq]
    by_cases hp : n = "PLAIN"
    · rw [if_pos hp, hp]
      have h2 : (acc ||| 1) &&& 2 = acc &&& 2 := by
        interval_cases acc <;> decide
      rw [h2]
      simp
    · rw [if_neg hp]
      by_cases hd : n = "DIGEST-MD5"
      · rw [if_pos hd, hd]
        have h2 : (acc ||| 2) &&& 2 ≠ 0 := by
          interval_cases acc <;> decide
        simp [h2]
      · rw [if_neg hd]
        simp [hd]

theorem auth_type_step_bit1 (acc : Nat) (h : acc < 4) (name : Option String) :
    (auth_type_step acc name &&& 1 ≠ 0) ↔
      (acc &&& 1 ≠ 0 ∨ name = some "PLAIN") := by
  rcases name with _ | n
  · simp [auth_type_step]
  · simp only [auth_type_step, Option.some.injEq]
    by_cases hp : n = "PLAIN"
    · rw [if_pos hp, hp]
      have h2 : (acc ||| 1) &&& 1 ≠ 0 := by
        interval_cases acc <;> decide
      simp [h2]
    · rw [if_neg hp]
      by_cases hd : n = "DIGEST-MD5"
      · rw [if_pos hd]
        have h2 : (acc ||| 2) &&& 1 = acc &&& 1 := by
          interval_cases acc <;> decide
        rw [h2]
        simp [hp]
      · rw [if_neg hd]
        simp [hp]

theorem foldl_auth_lt4 (names : List (Option String)) :
    ∀ acc, acc < 4 → names.foldl auth_type_step acc < 4 := by
  induction names with
  | nil => intro acc h; simpa
  | cons n rest ih =>
    intro acc h
    exact ih _ (auth_type_step_lt4 acc h n)

theorem foldl_auth_bit2 (names : List (Option String)) :
    ∀ acc, acc < 4 →
      ((names.foldl auth_type_step acc) &&& 2 ≠ 0 ↔
        (acc &&& 2 ≠ 0 ∨ some "DIGEST-MD5" ∈ names)) := by
  induction names with
  | nil => intro acc h; simp
  | cons n rest ih =>
    intro acc h
    rw [List.foldl_cons, ih _ (auth_type_step_lt4 acc h n),
      auth_type_step_bit2 acc h n, List.mem_cons]
    tauto

theorem foldl_auth_bit1 (names : List (Option String)) :
    ∀ acc, acc < 4 →
      ((names.foldl auth_type_step acc) &&& 1 ≠ 0 ↔
        (acc &&& 1 ≠ 0 ∨ some "PLAIN" ∈ names)) := by
  induction names with
  | nil => intro acc h; simp
  | cons n rest ih =>
    intro acc h
    rw [List.foldl_cons, ih _ (auth_type_step_lt4 acc h n),
      auth_type_step_bit1 acc h n, List.mem_cons]
    tauto

theorem select_auth_type_bit2 (names : List (Option String)) :
    (select_auth_type names &&& 2 ≠ 0) ↔ some "DIGEST-MD5" ∈ names := by
  unfold select_auth_type
  rw [foldl_auth_bit2 names 0 (by decide)]
  simp

theorem select_auth_type_bit1 (names : List (Option String)) :
    (select_auth_type names &&& 1 ≠ 0) ↔ some "PLAIN" ∈ names := by
  unfold select_auth_type
  rw [foldl_auth_bit1 names 0 (by decide)]
  simp

theorem select_auth_type_zero (names : List (Option String))
    (h1 : some "PLAIN" ∉ names) (h2 : some "DIGEST-MD5" ∉ names) :
    select_auth_type names = 0 := by
  have hlt := foldl_auth_lt4 names 0 (by decide)
  have hb2 : ¬ (select_auth_type names &&& 2 ≠ 0) := by
    rw [select_auth_type_bit2]
    exact h2
  have hb1 : ¬ (select_auth_type names &&& 1 ≠ 0) := by
    rw [select_auth_type_bit1]
    exact h1
  unfold select_auth_type at *
  interval_cases h : (names.foldl auth_type_step 0) <;> simp_all

theorem lm_sasl_start_authType (b64enc : String → String) (sendOk : Bool)
    (sasl : LmSASL) :
    (lm_sasl_start b64enc sendOk sasl).2.1.authType = sasl.authType := by
  unfold lm_sasl_start
  cases h : sasl.authType with
  | none => simp [h]
  | some t =>
    cases t with
    | plain =>
      cases sasl.username <;> cases sasl.password <;> simp [h]
    | digest => simp [h]

/-! Helper lemmas about byte strings, for the hash-derivation claim. -/

theorem strBytes_append (s t : String) :
    strBytes (s ++ t) = strBytes s ++ strBytes t := by
  simp [strBytes, String.data_append]

theorem md5_prepare_response_state (md5f : List Nat → List Nat) (cnonce : String)
    (sasl : LmSASL) (challenge : Table) :
    (md5_prepare_response md5f cnonce sasl challenge).2.1.state = sasl.state := by
  unfold md5_prepare_response
  rcases hu : sasl.username with _ | u <;> rcases hp : sasl.password with _ | p <;> simp
  cases hn : hashLookup challenge "nonce" <;> simp [hn]

/-! The claims. -/

/-- C1: the claim states that in `DigestSentAuthResponse`, a second
challenge without `rspauth`, or with an `rspauth` different from the stored
value, invokes the result callback with success = false and reason
"server error" and sends nothing.  The code does invoke the callback with
reason "server error" and sends nothing, but passes TRUE as the success
flag (lm-sasl.c:396 and :404), contradicting the documented/intended
failure report: this theorem evaluates `digest_md5_check_server_response`
at a mismatching and at an absent `rspauth` and exhibits the inverted
flag. -/
theorem c1_check_server_response_inverted_success :
    digest_md5_check_server_response true saslAfterAuthResponse [("rspauth", "00")] =
      ([Event.callback true (some "server error")], saslAfterAuthResponse, false) ∧
    digest_md5_check_server_response true saslAfterAuthResponse [("realm", "r")] =
      ([Event.callback true (some "server error")], saslAfterAuthResponse, false) :=
  ⟨rfl, rfl⟩

/-- C2: the claim states the result callback fires at most once per
session, in particular exactly once for a single success message even in a
mismatched state.  In the code, `success_cb` on a success received in a
state other than the pre-success state first invokes the callback with
`(FALSE, "server error")` (lm-sasl.c:528-530) and then falls through to the
unconditional `(TRUE, NULL)` invocation (lm-sasl.c:538-540): one message,
two callback invocations.  This theorem evaluates `success_cb` at such a
state. -/
theorem c2_success_cb_double_callback :
    success_cb saslDigestStarted ⟨some XMPP_NS_SASL_AUTH, none⟩ =
      ([Event.callback false (some "server error"), Event.callback true none],
        saslDigestStarted, HandlerOutcome.removeMessage) :=
  rfl

/-- C3: a parsed first challenge whose mapping lacks a `nonce` directive —
or maps `nonce` to the empty string, a case the parser can in fact never
produce, since every parsed value is nonempty — makes
`md5_prepare_response` invoke the result callback with
`(false, "server error")` and produce no response string.  (The C nonce
test `nonce == NULL || nonce == '\0'` only detects absence, but absence is
the only reachable case for parser-produced tables.)  Credentials are
assumed present, as in the claim's DIGEST-MD5 flow; with them absent the
earlier credential check fires first with a different reason. -/
theorem c3_prepare_response_rejects_bad_nonce (md5f : List Nat → List Nat)
    (cnonce : String) (sasl : LmSASL) (s : String) (h : Table) (u pw : String)
    (hu : sasl.username = some u) (hp : sasl.password = some pw)
    (hparse : digest_md5_challenge_to_hash s = some h)
    (hnonce : hashLookup h "nonce" = none ∨ hashLookup h "nonce" = some "") :
    md5_prepare_response md5f cnonce sasl h =
      ([Event.callback false (some "server error")], sasl, none) := by
  have hnn : hashLookup h "nonce" = none := by
    rcases hnonce with h1 | h1
    · exact h1
    · obtain ⟨kv, hm, hv⟩ := hashLookup_mem h "nonce" "" h1
      exact absurd hv (parse_values_nonempty s h hparse kv hm)
  unfold md5_prepare_response
  rw [hu, hp]
  simp [hnn]

theorem c3_witness :
    saslDigestStarted.username = some "user" ∧
    saslDigestStarted.password = some "pass" ∧
    digest_md5_challenge_to_hash "realm=x" = some [("realm", "x")] ∧
    (hashLookup [("realm", "x")] "nonce" = none ∨
      hashLookup [("realm", "x")] "nonce" = some "") ∧
    md5_prepare_response md5f0 "cn" saslDigestStarted [("realm", "x")] =
      ([Event.callback false (some "server error")], saslDigestStarted, none) :=
  ⟨rfl, rfl, by decide, Or.inl (by decide),
    c3_prepare_response_rejects_bad_nonce md5f0 "cn" saslDigestStarted "realm=x"
      [("realm", "x")] "user" "pass" rfl rfl (by decide) (Or.inl (by decide))⟩

/-- C4 counterexample: the claim states that a SASL-namespace challenge
delivered in state `NoMechanism` is rejected with a failure callback and
never reaches an unreachable-code assertion.  On a fresh session (state
`NoMechanism`, `auth_type` still zero-initialised) `challenge_cb` reaches
the `g_assert_not_reached ()` in the default branch of its mechanism
switch (lm-sasl.c:495): the process aborts and no callback is invoked. -/
theorem c4_counterexample_nomech_assert :
    challenge_cb md5f0 b64id b64id "cn" true saslFresh
      ⟨some XMPP_NS_SASL_AUTH, some "x"⟩ =
      ([], saslFresh, HandlerOutcome.assertNotReached) :=
  rfl

/-- C4 (amended): for a DIGEST-MD5 session, a SASL-namespace challenge
with text content delivered in state `DigestSentFinalResponse` is rejected
with the result callback `(false, "server error")` and consumed (not
dropped, no assertion); but in state `NoMechanism` — where no mechanism
was negotiated and `auth_type` is still zero — the dispatcher reaches the
unreachable-code assertion instead (see the counterexample), and a
challenge with absent text content is dropped without a callback. -/
theorem c4_challenge_final_state_rejected (md5f : List Nat → List Nat)
    (b64dec b64enc : String → String) (cnonce : String) (sendOk : Bool)
    (sasl : LmSASL) (v : String)
    (hauth : sasl.authType = some AuthType.digest)
    (hstate : sasl.state = SaslAuthState.digestMd5SentFinalResponse) :
    challenge_cb md5f b64dec b64enc cnonce sendOk sasl
      ⟨some XMPP_NS_SASL_AUTH, some v⟩ =
      ([Event.callback false (some "server error")], sasl,
        HandlerOutcome.removeMessage) := by
  unfold challenge_cb digest_md5_handle_challenge
  cases hpp : digest_md5_challenge_to_hash (b64dec v) with
  | none => simp [hauth, hpp]
  | some hh => simp [hauth, hpp, hstate]

theorem c4_witness :
    saslFinalResponse.authType = some AuthType.digest ∧
    saslFinalResponse.state = SaslAuthState.digestMd5SentFinalResponse ∧
    challenge_cb md5f0 b64id b64id "cn" true saslFinalResponse
      ⟨some XMPP_NS_SASL_AUTH, some "x"⟩ =
      ([Event.callback false (some "server error")], saslFinalResponse,
        HandlerOutcome.removeMessage) :=
  ⟨rfl, rfl,
    c4_challenge_final_state_rejected md5f0 b64id b64id "cn" true
      saslFinalResponse "x" rfl rfl⟩

/-- C9 counterexample: the claim states that every sending operation,
including mechanism start, leaves the state field unchanged when the
transport send fails.  But `lm_sasl_start` sets the state *before*
sending (lm-sasl.c:589 and :618): starting PLAIN on a fresh session with a
failing transport returns FALSE with the state already advanced from
`NoMechanism` to `PlainStarted`. -/
theorem c9_counterexample_start_state_advanced :
    saslPlainFresh.state = SaslAuthState.noMech ∧
    (lm_sasl_start b64id false saslPlainFresh).2.2 = false ∧
    (lm_sasl_start b64id false saslPlainFresh).2.1.state =
      SaslAuthState.plainStarted :=
  ⟨rfl, rfl, rfl⟩

/-- C9 (amended): when the transport send fails, the DIGEST-MD5
initial-response and final-empty-response operations leave the session's
state field unchanged, as claimed; the mechanism-start operation instead
has already set the state (to `PlainStarted` or `DigestStarted` according
to the mechanism) before the send, so a send failure leaves the state
advanced. -/
theorem c9_send_failure_state_effects (md5f : List Nat → List Nat)
    (b64enc : String → String) (cnonce : String) (sasl : LmSASL) (h : Table) :
    (digest_md5_send_initial_response md5f b64enc cnonce false sasl h).2.1.state =
      sasl.state ∧
    (digest_md5_check_server_response false sasl h).2.1.state = sasl.state ∧
    (lm_sasl_start b64enc false sasl).2.1.state =
      (match sasl.authType with
       | some AuthType.plain => SaslAuthState.plainStarted
       | some AuthType.digest => SaslAuthState.digestMd5Started
       | none => sasl.state) := by
  refine ⟨?_, ?_, ?_⟩
  · have hps := md5_prepare_response_state md5f cnonce sasl h
    unfold digest_md5_send_initial_response
    cases hp : md5_prepare_response md5f cnonce sasl h with
    | mk ev r2 =>
      obtain ⟨sasl2, resp⟩ := r2
      rw [hp] at hps
      cases resp with
      | none => simpa using hps
      | some r => simpa using hps
  · unfold digest_md5_check_server_response
    cases hr : hashLookup h "rspauth" with
    | none => simp
    | some r =>
      simp only []
      split
      · simp
      · simp
  · unfold lm_sasl_start
    rcases ha : sasl.authType with _ | t
    · simp [ha]
    · cases t with
      | plain =>
        rcases hu : sasl.username with _ | u <;>
          rcases hp : sasl.password with _ | p <;> simp [ha]
      | digest => simp [ha]

/-- C10: for a DIGEST-MD5 session in any state, a challenge node whose
text content is absent (`lm_message_node_get_value` returns NULL) is
dropped by `digest_md5_handle_challenge` with no callback and no session
change (lm-sasl.c:434-437), while a challenge whose (decoded) content does
not parse triggers the result callback `(false, "server error")`
(lm-sasl.c:443-449), also with no session change. -/
theorem c10_empty_challenge_dropped (md5f : List Nat → List Nat)
    (b64dec b64enc : String → String) (cnonce : String) (sendOk : Bool)
    (sasl : LmSASL) (ns : Option String) (e : String) :
    digest_md5_handle_challenge md5f b64dec b64enc cnonce sendOk sasl ⟨ns, none⟩ =
      ([], sasl, false) ∧
    (digest_md5_challenge_to_hash (b64dec e) = none →
      digest_md5_handle_challenge md5f b64dec b64enc cnonce sendOk sasl ⟨ns, some e⟩ =
        ([Event.callback false (some "server error")], sasl, false)) := by
  constructor
  · rfl
  · intro hp
    unfold digest_md5_handle_challenge
    simp [hp]

theorem c10_witness :
    digest_md5_challenge_to_hash (b64id "key") = none ∧
    digest_md5_handle_challenge md5f0 b64id b64id "cn" true saslDigestStarted
      ⟨some XMPP_NS_SASL_AUTH, some "key"⟩ =
      ([Event.callback false (some "server error")], saslDigestStarted, false) :=
  ⟨by decide,
    (c10_empty_challenge_dropped md5f0 b64id b64id "cn" true saslDigestStarted
      (some XMPP_NS_SASL_AUTH) "key").2 (by decide)⟩

/-- C5: mechanism selection over the advertised (ordered) name list,
matched case-sensitively with unrecognized names ignored: any list
containing "DIGEST-MD5" selects DIGEST-MD5; a list containing "PLAIN" but
not "DIGEST-MD5" selects PLAIN; with neither, `lm_sasl_authenticate`
fails, returning FALSE with the session untouched and no message sent. -/
theorem c5_mechanism_selection (b64enc : String → String) (sendOk : Bool)
    (sasl : LmSASL) (mechs : MechanismsNode)
    (hns : mechs.xmlns = some XMPP_NS_SASL_AUTH) :
    ((some "DIGEST-MD5" ∈ mechs.names) →
      (lm_sasl_authenticate b64enc sendOk sasl mechs).2.1.authType =
        some AuthType.digest) ∧
    ((some "PLAIN" ∈ mechs.names ∧ some "DIGEST-MD5" ∉ mechs.names) →
      (lm_sasl_authenticate b64enc sendOk sasl mechs).2.1.authType =
        some AuthType.plain) ∧
    ((some "PLAIN" ∉ mechs.names ∧ some "DIGEST-MD5" ∉ mechs.names) →
      lm_sasl_authenticate b64enc sendOk sasl mechs = ([], sasl, false)) := by
  unfold lm_sasl_authenticate
  refine ⟨?_, ?_, ?_⟩
  · intro hmem
    have hb2 : select_auth_type mechs.names &&& 2 ≠ 0 :=
      (select_auth_type_bit2 mechs.names).2 hmem
    have hnz : ¬ (select_auth_type mechs.names = 0) := by
      intro e
      rw [e] at hb2
      exact hb2 rfl
    simp only [hns, ne_eq, not_true_eq_false, if_false, if_neg hnz, if_pos hb2]
    rw [lm_sasl_start_authType]
  · rintro ⟨hpl, hdg⟩
    have hb1 : select_auth_type mechs.names &&& 1 ≠ 0 :=
      (select_auth_type_bit1 mechs.names).2 hpl
    have hb2 : ¬ (select_auth_type mechs.names &&& 2 ≠ 0) := by
      rw [select_auth_type_bit2]
      exact hdg
    have hnz : ¬ (select_auth_type mechs.names = 0) := by
      intro e
      rw [e] at hb1
      exact hb1 rfl
    simp only [hns, ne_eq, not_true_eq_false, if_false, if_neg hnz, if_neg hb2,
      if_pos hb1]
    rw [lm_sasl_start_authType]
  · rintro ⟨hpl, hdg⟩
    have hz : select_auth_type mechs.names = 0 :=
      select_auth_type_zero mechs.names hpl hdg
    simp only [hns, ne_eq, not_true_eq_false, if_false, if_pos hz]

theorem c5_witness :
    mechsPlainDigest.xmlns = some XMPP_NS_SASL_AUTH ∧
    some "DIGEST-MD5" ∈ mechsPlainDigest.names ∧
    (lm_sasl_authenticate b64id true saslFresh mechsPlainDigest).2.1.authType =
      some AuthType.digest :=
  ⟨rfl, by simp [mechsPlainDigest],
    (c5_mechanism_selection b64id true saslFresh mechsPlainDigest rfl).1
      (by simp [mechsPlainDigest])⟩

theorem parseDirective_empty_key (rest : List Char) :
    parseDirective ('=' :: rest) = none := by
  simp [parseDirective]

theorem parseDirective_no_equals (cs : List Char) (hmem : '=' ∉ cs) :
    parseDirective cs = none := by
  have hall : ∀ x ∈ cs, (fun ch => decide (ch ≠ '=')) x = true := by
    intro x hx
    simp only [decide_eq_true_eq]
    exact fun e => hmem (e ▸ hx)
  unfold parseDirective
  rw [List.dropWhile_eq_nil_iff.2 hall]

theorem parseDirective_unterminated_quote (key v : List Char)
    (hk : key ≠ []) (hke : '=' ∉ key) (hv : '"' ∉ v) :
    parseDirective (key ++ '=' :: '"' :: v) = none := by
  have hallk : ∀ x ∈ key, (fun ch => decide (ch ≠ '=')) x = true := by
    intro x hx
    simp only [decide_eq_true_eq]
    exact fun e => hke (e ▸ hx)
  have hallv : ∀ x ∈ v, (fun ch => decide (ch ≠ '"')) x = true := by
    intro x hx
    simp only [decide_eq_true_eq]
    exact fun e => hv (e ▸ hx)
  have hq : parseQuotedVal v = none := by
    unfold parseQuotedVal
    rw [List.dropWhile_eq_nil_iff.2 hallv]
  have hke2 : key.isEmpty = false := by
    cases key with
    | nil => exact absurd rfl hk
    | cons a l => rfl
  unfold parseDirective
  rw [dropWhile_append_cons _ key '=' ('"' :: v) hallk (by simp),
    takeWhile_append_cons _ key '=' ('"' :: v) hallk (by simp)]
  simp [hke2, hq]

theorem parseDirective_empty_unquoted (key rest : List Char)
    (hk : key ≠ []) (hke : '=' ∉ key) :
    parseDirective (key ++ '=' :: ',' :: rest) = none := by
  have hallk : ∀ x ∈ key, (fun ch => decide (ch ≠ '=')) x = true := by
    intro x hx
    simp only [decide_eq_true_eq]
    exact fun e => hke (e ▸ hx)
  have hke2 : key.isEmpty = false := by
    cases key with
    | nil => exact absurd rfl hk
    | cons a l => rfl
  have hu : parseUnquotedVal (',' :: rest) = none := by
    simp [parseUnquotedVal]
  unfold parseDirective
  rw [dropWhile_append_cons _ key '=' (',' :: rest) hallk (by simp),
    takeWhile_append_cons _ key '=' (',' :: rest) hallk (by simp)]
  simp [hke2, hu]

theorem parseDirective_value_at_end (key : List Char)
    (hk : key ≠ []) (hke : '=' ∉ key) :
    parseDirective (key ++ ['=']) = none := by
  have hallk : ∀ x ∈ key, (fun ch => decide (ch ≠ '=')) x = true := by
    intro x hx
    simp only [decide_eq_true_eq]
    exact fun e => hke (e ▸ hx)
  have hke2 : key.isEmpty = false := by
    cases key with
    | nil => exact absurd rfl hk
    | cons a l => rfl
  have hu : parseUnquotedVal ([] : List Char) = none := rfl
  unfold parseDirective
  rw [show (key ++ ['='] : List Char) = key ++ '=' :: [] from rfl,
    dropWhile_append_cons _ key '=' [] hallk (by simp),
    takeWhile_append_cons _ key '=' [] hallk (by simp)]
  simp [hke2, hu]

/-- C7: a directive that is malformed — empty key, key with no `=`,
unterminated quoted value, or empty unquoted value (mid-string before a
`,` or at the end of the string) — makes the parse loop return `none`
regardless of the table `tbl` of directives accumulated before it: the
parser never returns a partial mapping. -/
theorem c7_malformed_directive_whole_failure :
    ∀ (fuel : Nat) (tbl : Table),
      (∀ rest : List Char, parseLoop (fuel + 1) ('=' :: rest) tbl = none) ∧
      (∀ cs : List Char, '=' ∉ cs → parseLoop (fuel + 1) cs tbl = none) ∧
      (∀ key v : List Char, key ≠ [] → '=' ∉ key → '"' ∉ v →
        parseLoop (fuel + 1) (key ++ '=' :: '"' :: v) tbl = none) ∧
      (∀ key rest : List Char, key ≠ [] → '=' ∉ key →
        parseLoop (fuel + 1) (key ++ '=' :: ',' :: rest) tbl = none) ∧
      (∀ key : List Char, key ≠ [] → '=' ∉ key →
        parseLoop (fuel + 1) (key ++ ['=']) tbl = none) := by
  intro fuel tbl
  refine ⟨?_, ?_, ?_, ?_, ?_⟩
  · intro rest
    rw [parseLoop_succ, parseDirective_empty_key rest]
  · intro cs hmem
    rw [parseLoop_succ, parseDirective_no_equals cs hmem]
  · intro key v hk hke hv
    rw [parseLoop_succ, parseDirective_unterminated_quote key v hk hke hv]
  · intro key rest hk hke
    rw [parseLoop_succ, parseDirective_empty_unquoted key rest hk hke]
  · intro key hk hke
    rw [parseLoop_succ, parseDirective_value_at_end key hk hke]

theorem c7_witness :
    ('=' ∉ ['k', 'e', 'y']) ∧
    parseLoop 1 ['k', 'e', 'y'] [("realm", "x")] = none :=
  ⟨by decide, (c7_malformed_directive_whole_failure 0 [("realm", "x")]).2.1
    ['k', 'e', 'y'] (by decide)⟩

theorem parseQuotedVal_wellformed (v rest : List Char)
    (hv : v ≠ []) (hvq : '"' ∉ v) (hvb : '\\' ∉ v) :
    parseQuotedVal (v ++ '"' :: rest) = some (String.mk v, rest) := by
  have hallv : ∀ x ∈ v, (fun ch => decide (ch ≠ '"')) x = true := by
    intro x hx
    simp only [decide_eq_true_eq]
    exact fun e => hvq (e ▸ hx)
  have hve : v.isEmpty = false := by
    cases v with
    | nil => exact absurd rfl hv
    | cons a l => rfl
  unfold parseQuotedVal
  rw [dropWhile_append_cons _ v '"' rest hallv (by simp),
    takeWhile_append_cons _ v '"' rest hallv (by simp)]
  simp [hve, strndup_unescaped_no_backslash v ('"' :: rest) hvb]

theorem parseDirective_wellformed_quoted (k v rest : List Char)
    (hk : k ≠ []) (hke : '=' ∉ k)
    (hv : v ≠ []) (hvq : '"' ∉ v) (hvb : '\\' ∉ v) :
    parseDirective (k ++ '=' :: '"' :: (v ++ '"' :: rest)) =
      some (String.mk k, String.mk v, rest) := by
  have hallk : ∀ x ∈ k, (fun ch => decide (ch ≠ '=')) x = true := by
    intro x hx
    simp only [decide_eq_true_eq]
    exact fun e => hke (e ▸ hx)
  have hke2 : k.isEmpty = false := by
    cases k with
    | nil => exact absurd rfl hk
    | cons a l => rfl
  unfold parseDirective
  rw [dropWhile_append_cons _ k '=' ('"' :: (v ++ '"' :: rest)) hallk (by simp),
    takeWhile_append_cons _ k '=' ('"' :: (v ++ '"' :: rest)) hallk (by simp)]
  simp [hke2, parseQuotedVal_wellformed v rest hv hvq hvb]

theorem parseUnquotedVal_wellformed (v : List Char)
    (hv : v ≠ []) (hvc : ',' ∉ v) :
    parseUnquotedVal v = some (String.mk v, []) := by
  have hallv : ∀ x ∈ v, (fun ch => decide (ch ≠ ',')) x = true := by
    intro x hx
    simp only [decide_eq_true_eq]
    exact fun e => hvc (e ▸ hx)
  have hve : v.isEmpty = false := by
    cases v with
    | nil => exact absurd rfl hv
    | cons a l => rfl
  unfold parseUnquotedVal
  rw [List.takeWhile_eq_self_iff.2 hallv, List.dropWhile_eq_nil_iff.2 hallv]
  simp [hve]

theorem parseDirective_wellformed_unquoted (k v : List Char)
    (hk : k ≠ []) (hke : '=' ∉ k)
    (hv : v ≠ []) (hvc : ',' ∉ v) (hvq : v.head? ≠ some '"') :
    parseDirective (k ++ '=' :: v) = some (String.mk k, String.mk v, []) := by
  have hallk : ∀ x ∈ k, (fun ch => decide (ch ≠ '=')) x = true := by
    intro x hx
    simp only [decide_eq_true_eq]
    exact fun e => hke (e ▸ hx)
  have hke2 : k.isEmpty = false := by
    cases k with
    | nil => exact absurd rfl hk
    | cons a l => rfl
  cases v with
  | nil => exact absurd rfl hv
  | cons c vt =>
    have hc : ¬ (c = '"') := by
      intro e
      exact hvq (by rw [e]; rfl)
    unfold parseDirective
    rw [dropWhile_append_cons _ k '=' (c :: vt) hallk (by simp),
      takeWhile_append_cons _ k '=' (c :: vt) hallk (by simp)]
    simp only [hke2, Bool.false_eq_true, if_false]
    split
    · rename_i rest3 heq
      exact absurd (List.cons.injEq .. ▸ heq).1 hc
    · rw [parseUnquotedVal_wellformed (c :: vt) (by simp) hvc]
      rfl

/-- C8 counterexample: the claim states that in `k1="v1",k2=v2` a quoted
value containing an escaped quote `\"` is scanned to the first unescaped
closing quote and unescaped to a literal `"`.  On
`k1="a\"b",k2=v2` (claimed mapping: k1 to the three characters a, quote, b
and k2 to v2) the scan in fact stops at the escaped quote: the parsed
table maps no key `k2` at all, and `k1` maps to the two characters a,
quote. -/
theorem c8_counterexample_escaped_quote :
    (digest_md5_challenge_to_hash "k1=\"a\\\"b\",k2=v2").bind
        (fun h => hashLookup h "k2") = none ∧
    (digest_md5_challenge_to_hash "k1=\"a\\\"b\",k2=v2").bind
        (fun h => hashLookup h "k1") = some "a\"" :=
  ⟨rfl, rfl⟩

/-- C8 (amended): for a directive string built as `k1="v1",k2=v2` with
nonempty keys free of `=` and distinct, `v1` nonempty and containing
neither `"` nor `\`, and `v2` nonempty, free of `,` and not starting with
`"`, the parser recovers exactly the mapping sending k1 to v1 and k2 to
v2.  The escaped-quote part of the original claim is dropped: the
quoted-value scan stops at the first `"` even when it is preceded by a
backslash (see the counterexample), so `\"` cannot be embedded in a
value; a backslash before any other character is unescaped. -/
theorem c8_roundtrip_amended (k1 v1 k2 v2 : List Char)
    (hk1 : k1 ≠ []) (hk1e : '=' ∉ k1)
    (hv1 : v1 ≠ []) (hv1q : '"' ∉ v1) (hv1b : '\\' ∉ v1)
    (hk2 : k2 ≠ []) (hk2e : '=' ∉ k2)
    (hv2 : v2 ≠ []) (hv2c : ',' ∉ v2) (hv2q : v2.head? ≠ some '"')
    (hkk : k1 ≠ k2) :
    digest_md5_challenge_to_hash
        (String.mk (k1 ++ '=' :: '"' :: (v1 ++ '"' :: ',' :: (k2 ++ '=' :: v2)))) =
      some [(String.mk k2, String.mk v2), (String.mk k1, String.mk v1)] ∧
    hashLookup [(String.mk k2, String.mk v2), (String.mk k1, String.mk v1)]
      (String.mk k1) = some (String.mk v1) ∧
    hashLookup [(String.mk k2, String.mk v2), (String.mk k1, String.mk v1)]
      (String.mk k2) = some (String.mk v2) := by
  have hkks : ¬ (String.mk k2 = String.mk k1) := by
    intro e
    injection e with e
    exact hkk e.symm
  have hkks2 : ¬ (String.mk k1 = String.mk k2) := by
    intro e
    injection e with e
    exact hkk e
  refine ⟨?_, ?_, ?_⟩
  · unfold digest_md5_challenge_to_hash
    have hlen1 : (String.mk
        (k1 ++ '=' :: '"' :: (v1 ++ '"' :: ',' :: (k2 ++ '=' :: v2)))).data =
        k1 ++ '=' :: '"' :: (v1 ++ '"' :: ',' :: (k2 ++ '=' :: v2)) := rfl
    rw [hlen1]
    rw [parseLoop_succ,
      parseDirective_wellformed_quoted k1 v1 (',' :: (k2 ++ '=' :: v2))
        hk1 hk1e hv1 hv1q hv1b]
    have hne : (k2 ++ '=' :: v2).isEmpty = false := by
      cases k2 with
      | nil => exact absurd rfl hk2
      | cons a l => rfl
    simp only [List.head?_cons, Option.some.injEq, eq_self_iff_true, if_true,
      List.tail_cons, hne, Bool.false_eq_true, if_false]
    have hpos : 0 < (k1 ++ '=' :: '"' :: (v1 ++ '"' :: ',' :: (k2 ++ '=' :: v2))).length := by
      simp
    obtain ⟨m, hm⟩ : ∃ m,
        (k1 ++ '=' :: '"' :: (v1 ++ '"' :: ',' :: (k2 ++ '=' :: v2))).length = m + 1 :=
      ⟨(k1 ++ '=' :: '"' :: (v1 ++ '"' :: ',' :: (k2 ++ '=' :: v2))).length - 1,
        by omega⟩
    rw [hm, parseLoop_succ,
      parseDirective_wellformed_unquoted k2 v2 hk2 hk2e hv2 hv2c hv2q]
    simp [hashInsert, hkks, hkks2]
  · unfold hashLookup
    rw [List.find?_cons_of_neg _ (by simpa using hkks),
      List.find?_cons_of_pos _ (by simp)]
    rfl
  · unfold hashLookup
    rw [List.find?_cons_of_pos _ (by simp)]
    rfl

theorem c8_witness :
    (['k'] : List Char) ≠ [] ∧ '=' ∉ (['k'] : List Char) ∧
    (['a'] : List Char) ≠ [] ∧ '"' ∉ (['a'] : List Char) ∧
    '\\' ∉ (['a'] : List Char) ∧
    (['n'] : List Char) ≠ [] ∧ '=' ∉ (['n'] : List Char) ∧
    (['b'] : List Char) ≠ [] ∧ ',' ∉ (['b'] : List Char) ∧
    (['b'] : List Char).head? ≠ some '"' ∧
    (['k'] : List Char) ≠ ['n'] ∧
    digest_md5_challenge_to_hash
        (String.mk (['k'] ++ '=' :: '"' :: (['a'] ++ '"' :: ',' :: (['n'] ++ '=' :: ['b'])))) =
      some [(String.mk ['n'], String.mk ['b']), (String.mk ['k'], String.mk ['a'])] :=
  ⟨by decide, by decide, by decide, by decide, by decide, by decide, by decide,
    by decide, by decide, by decide, by decide,
    (c8_roundtrip_amended ['k'] ['a'] ['n'] ['b'] (by decide) (by decide) (by decide)
      (by decide) (by decide) (by decide) (by decide) (by decide) (by decide)
      (by decide) (by decide)).1⟩

theorem strBytes_sixteen_colon :
    strBytes "0123456789012345:" = strBytes "0123456789012345" ++ strBytes ":" := rfl

/-- The C `a1` construction (printf with a 16-byte placeholder, then
`memcpy` of the raw digest over the placeholder, hashing `strlen` bytes)
equals raw-digest-then-text concatenation, because the digest is exactly
16 bytes like the placeholder. -/
theorem a1_take_drop (md5f : List Nat → List Nat)
    (hlen : ∀ l, (md5f l).length = 16) (x : List Nat) (N CN : String) :
    (md5f x ++ (strBytes ("0123456789012345:" ++ N ++ ":" ++ CN)).drop 16).take
        (strBytes ("0123456789012345:" ++ N ++ ":" ++ CN)).length =
      md5f x ++ strBytes (":" ++ N ++ ":" ++ CN) := by
  have hsplit : strBytes ("0123456789012345:" ++ N ++ ":" ++ CN) =
      strBytes "0123456789012345" ++ strBytes (":" ++ N ++ ":" ++ CN) := by
    simp only [strBytes_append, strBytes_sixteen_colon]
    simp [List.append_assoc]
  rw [hsplit]
  rw [show (16 : Nat) = (strBytes "0123456789012345").length from rfl,
    List.drop_left]
  apply List.take_of_length_le
  simp [List.length_append, hlen,
    show (strBytes "0123456789012345").length = 16 from rfl]

/-- C6: for fixed username `U`, realm `R` (present in the challenge),
password `P`, server nonce `N` and client nonce `CN`, and any 16-byte MD5
primitive, `md5_prepare_response` emits no events and produces exactly the
directive text with `response` equal to the claimed derivation
`hex(MD5(HA1 ":" N ":00000001:" CN ":auth:" HA2))` (see `responseSpec`),
and stores as expected rspauth the same derivation with `A2' = ":xmpp/R"`
(see `rspauthSpec`); both are `def`s of (U, R, P, N, CN) alone, hence
deterministic in those inputs. -/
theorem c6_response_derivation (md5f : List Nat → List Nat)
    (hlen : ∀ l, (md5f l).length = 16)
    (U R P N CN : String) (auth : Option AuthType) (st : SaslAuthState)
    (srv : String) (old : Option String) :
    md5_prepare_response md5f CN
        ⟨auth, st, some U, some P, srv, old⟩ [("nonce", N), ("realm", R)] =
      ([], ⟨auth, st, some U, some P, srv,
          some (rspauthSpec md5f U R P N CN)⟩,
        some (md5_directive_text U R N CN ++
          (",response=" ++ responseSpec md5f U R P N CN))) := by
  have hn : hashLookup [("nonce", N), ("realm", R)] "nonce" = some N := rfl
  have hr : hashLookup [("nonce", N), ("realm", R)] "realm" = some R := rfl
  have hkey := a1_take_drop md5f hlen (strBytes (U ++ ":" ++ R ++ ":" ++ P)) N CN
  simp only [md5_prepare_response, hn, hr, Option.getD_some]
  rw [hkey]
  simp only [responseSpec, rspauthSpec, ha1Spec]

theorem c6_witness :
    (∀ l : List Nat, (md5f0 l).length = 16) ∧
    md5_prepare_response md5f0 "cn"
        ⟨some AuthType.digest, SaslAuthState.digestMd5Started, some "u", some "p",
          "srv", none⟩ [("nonce", "n"), ("realm", "r")] =
      ([], ⟨some AuthType.digest, SaslAuthState.digestMd5Started, some "u",
          some "p", "srv", some (rspauthSpec md5f0 "u" "r" "p" "n" "cn")⟩,
        some (md5_directive_text "u" "r" "n" "cn" ++
          (",response=" ++ responseSpec md5f0 "u" "r" "p" "n" "cn"))) :=
  ⟨fun l => by simp [md5f0],
    c6_response_derivation md5f0 (fun l => by simp [md5f0]) "u" "r" "p" "n" "cn"
      (some AuthType.digest) SaslAuthState.digestMd5Started "srv" none⟩

end Loudmouth
